import Mathlib

/-!
Verification of `src/configs/filter_smiles.py` (REINVENT4 SMILES dataset
cleaning script).  The script's pure logic is embedded shallowly:

* `tokenize_smiles` — the Python `while`-loop tokenizer, embedded with
  explicit fuel (`tokenizeAux`); `none` means the loop did not finish
  within the given fuel.  The default fuel `length + 1` is sufficient for
  every terminating run, because in such a run the index strictly
  increases at every iteration; the only backward jump the code can make
  is the reset to index 0 that happens when `str.find` fails, and from a
  repeated index the deterministic loop never terminates.
* `is_valid_smiles` — the validator; the external RDKit collaborator is a
  parameter (`parse : String → Option μ`, `canon : μ → String`), exactly
  as the spec treats it: an opaque black box.  The broad `try/except` of
  the Python code only guards the external calls, which are total here.
* `processLine`/`processLines`/`clean_smiles_file` — the file-processing
  loop, as a pure fold over the list of input lines; console progress
  output is recorded in the `progress` field of the state, written output
  lines in `output`.
* `success_rate` — the reporter's percentage; the Python
  `ZeroDivisionError` on an empty record set is modelled by `none`.
-/

namespace FilterSmiles

/-- The hard-coded allow-set of `get_allowed_tokens`. -/
def get_allowed_tokens : Finset String :=
  {"o", "$", "9", "[N-]", "Cl", "[O-]", "5", "-", "s", "6", "=", "7", "O", "4",
   ")", "c", "#", "[n+]", "[nH]", "n", "%10", "1", "N", "^", "[S+]", "8", "F",
   "[N+]", "C", "(", "3", "2", "Br", "S"}

/-- Python `s.find(c, i)`: the least index `j ≥ i` with `s[j] = c`,
`none` for Python's `-1`. -/
def pyFind (cs : List Char) (c : Char) (i : Nat) : Option Nat :=
  ((cs.drop i).findIdx? (fun x => x == c)).map (fun j => j + i)

/-- Python slice `s[i:j]` for natural `i`, `j` (empty when `j ≤ i`). -/
def pySlice (cs : List Char) (i j : Nat) : String :=
  String.mk ((cs.drop i).take (j - i))

/-- One fuelled run of the `while i < len(smiles)` loop of
`tokenize_smiles`.  Each constructor case mirrors one branch of the
Python loop body; `none` is returned when the fuel is exhausted with the
loop still running. -/
def tokenizeAux (cs : List Char) : Nat → Nat → Finset String → Option (Finset String)
  | 0, i, tokens => if i < cs.length then none else some tokens
  | fuel + 1, i, tokens =>
    if h : i < cs.length then
      let c := cs.get ⟨i, h⟩
      if c = '[' then
        let e := match pyFind cs ']' i with
          | some j => j + 1
          | none => 0
        tokenizeAux cs fuel e (insert (pySlice cs i e) tokens)
      else if c = '%' then
        if i + 2 < cs.length ∧ ((cs.drop (i + 1)).take 2).all Char.isDigit then
          tokenizeAux cs fuel (i + 3) (insert (pySlice cs i (i + 3)) tokens)
        else
          tokenizeAux cs fuel (i + 1) (insert (String.mk [c]) tokens)
      else
        tokenizeAux cs fuel (i + 1) (insert (String.mk [c]) tokens)
    else some tokens

/-- Definition `tokenize_smiles`: run the loop from index 0 with empty token set.
Fuel `length + 1` suffices for every terminating execution of the Python
loop (the index advances by at least one per iteration unless the loop
diverges). -/
def tokenize_smiles (s : String) : Option (Finset String) :=
  tokenizeAux s.data (s.data.length + 1) 0 ∅

/-- Python `repr` of a SMILES token (tokens contain no quote characters,
so `repr` wraps them in single quotes). -/
def quoteStr (t : String) : String := "\x27" ++ t ++ "\x27"

/-- Comma-space joining, as in Python's rendering of a set's elements. -/
def joinCommaSpace : List String → String
  | [] => ""
  | [x] => x
  | x :: y :: ys => x ++ ", " ++ joinCommaSpace (y :: ys)

/-- Modelled from the spec: the string rendering of a token set inside the
reason message `f"Unsupported tokens: {unsupported_tokens}"`.  Python's
own `set` rendering is insertion-order dependent; the spec (§4.2) directs
implementers to a deterministic rendering, e.g. sorted, which is what is
used here: braces around the comma-separated `repr`s of the elements in
sorted order. -/
def renderTokenSet (s : Finset String) : String :=
  "\x7b" ++ joinCommaSpace ((s.sort (· ≤ ·)).map quoteStr) ++ "\x7d"

/-- Definition `is_valid_smiles`.  The external RDKit collaborator is passed in as
`parse` (`Chem.MolFromSmiles`, `None` for parse failure) and `canon`
(`Chem.MolToSmiles`).  The result is `none` when the call does not
return (the tokenizer loop diverges); otherwise `some (flag, payload)`
with `payload` the canonical SMILES on success and the reason string on
failure.  The Python `try/except` only guards the external calls, which
are total functions here, so the `except` branch is unreachable in this
model. -/
def is_valid_smiles {μ : Type*} (parse : String → Option μ) (canon : μ → String)
    (smiles : String) (allowed_tokens : Finset String) : Option (Bool × String) :=
  match parse smiles with
  | none => some (false, "Invalid RDKit molecule")
  | some mol =>
    let canonical_smiles := canon mol
    match tokenize_smiles canonical_smiles with
    | none => none
    | some smiles_tokens =>
      let unsupported_tokens := smiles_tokens \ allowed_tokens
      if unsupported_tokens.Nonempty then
        some (false, "Unsupported tokens: " ++ renderTokenSet unsupported_tokens)
      else
        some (true, canonical_smiles)

/-- Python `line.strip()` on the `List Char` view (ASCII whitespace). -/
def pyStrip (s : String) : String :=
  String.mk (((s.data.dropWhile Char.isWhitespace).reverse.dropWhile
    Char.isWhitespace).reverse)

/-- Python `line.startswith('#')`. -/
def startsWithHash (s : String) : Bool :=
  match s.data with
  | [] => false
  | c :: _ => c = '#'

/-- Python `line.split(None, 1)` for a line that is already stripped:
the first whitespace-delimited token, and the remainder after the first
whitespace run when it is non-empty. -/
def pySplitOnce (s : String) : String × Option String :=
  let w := s.data.takeWhile (fun c => !c.isWhitespace)
  let rest := (s.data.dropWhile (fun c => !c.isWhitespace)).dropWhile Char.isWhitespace
  (String.mk w, if rest.isEmpty then none else some (String.mk rest))

/-- A line that `clean_smiles_file` skips: blank after stripping, or
starting with `#`. -/
def skippedLine (line : String) : Bool :=
  pyStrip line = "" || startsWithHash (pyStrip line)

/-- The mutable state of the `clean_smiles_file` loop: the two counters,
the `invalid_reasons` tally (an insertion-ordered association list, as a
Python dict), the lines written to the output file, and the line numbers
at which a progress notice was printed to the console. -/
structure CleanState where
  valid_count : Nat
  invalid_count : Nat
  invalid_reasons : List (String × Nat)
  output : List String
  progress : List Nat
  deriving DecidableEq, Repr

/-- Python `invalid_reasons[reason] = invalid_reasons.get(reason, 0) + 1` on an
insertion-ordered association list. -/
def bumpReason : List (String × Nat) → String → List (String × Nat)
  | [], r => [(r, 1)]
  | (k, v) :: rest, r =>
    if k = r then (k, v + 1) :: rest else (k, v) :: bumpReason rest r

/-- The `if line_num % 1000 == 0: print(...)` progress notice at the end
of the loop body (reached only for non-skipped lines, because the
blank/comment branch `continue`s past it). -/
def progressCheck (line_num : Nat) (st : CleanState) : CleanState :=
  if line_num % 1000 = 0 then
    { st with progress := st.progress ++ [line_num] }
  else st

/-- One iteration of the `for line_num, line in enumerate(infile, 1)`
loop of `clean_smiles_file`.  `none` means the iteration does not return
(the validator diverges on this line). -/
def processLine {μ : Type*} (parse : String → Option μ) (canon : μ → String)
    (allowed_tokens : Finset String) (line_num : Nat) (rawLine : String)
    (st : CleanState) : Option CleanState :=
  if skippedLine rawLine then some st
  else
    let line := pyStrip rawLine
    let parts := pySplitOnce line
    let smiles := parts.1
    let name := match parts.2 with
      | some n => n
      | none => "mol_" ++ toString line_num
    match is_valid_smiles parse canon smiles allowed_tokens with
    | none => none
    | some (true, result) =>
      some (progressCheck line_num
        { st with
          output := st.output ++ [result ++ "\t" ++ name],
          valid_count := st.valid_count + 1 })
    | some (false, reason) =>
      some (progressCheck line_num
        { st with
          invalid_count := st.invalid_count + 1,
          invalid_reasons := bumpReason st.invalid_reasons reason })

/-- The whole loop of `clean_smiles_file`, over the list of input lines,
starting at 1-indexed line number `line_num`. -/
def processLines {μ : Type*} (parse : String → Option μ) (canon : μ → String)
    (allowed_tokens : Finset String) :
    List String → Nat → CleanState → Option CleanState
  | [], _, st => some st
  | l :: ls, line_num, st =>
    match processLine parse canon allowed_tokens line_num l st with
    | none => none
    | some st' => processLines parse canon allowed_tokens ls (line_num + 1) st'

/-- The state at the start of `clean_smiles_file`. -/
def initState : CleanState :=
  { valid_count := 0, invalid_count := 0, invalid_reasons := [],
    output := [], progress := [] }

/-- Definition `clean_smiles_file`: process every input line, starting from line
number 1 with zeroed counters, against `get_allowed_tokens`. -/
def clean_smiles_file {μ : Type*} (parse : String → Option μ) (canon : μ → String)
    (lines : List String) : Option CleanState :=
  processLines parse canon get_allowed_tokens lines 1 initState

/-- The reporter's `valid_count/(valid_count + invalid_count)*100`.
Python raises `ZeroDivisionError` when no records were processed; that
failure is modelled by `none`. -/
def success_rate (valid_count invalid_count : Nat) : Option ℚ :=
  if valid_count + invalid_count = 0 then none
  else some ((valid_count : ℚ) / (valid_count + invalid_count) * 100)

/-- Sum of the per-reason tally counts. -/
def sumTally (reasons : List (String × Nat)) : Nat :=
  (reasons.map Prod.snd).sum

/-! Section: Helper lemmas about the embedded operations -/

theorem processLine_of_skipped {μ : Type*} (parse : String → Option μ)
    (canon : μ → String) (allowed : Finset String) (n : Nat) (line : String)
    (st : CleanState) (h : skippedLine line = true) :
    processLine parse canon allowed n line st = some st := by
  simp [processLine, h]

theorem processLines_all_skipped {μ : Type*} (parse : String → Option μ)
    (canon : μ → String) (allowed : Finset String) :
    ∀ (lines : List String) (n : Nat) (st : CleanState),
      (∀ l ∈ lines, skippedLine l = true) →
      processLines parse canon allowed lines n st = some st := by
  intro lines
  induction lines with
  | nil => intro n st _; rfl
  | cons l ls ih =>
    intro n st h
    have hl : skippedLine l = true := h l (List.mem_cons_self l ls)
    simp only [processLines, processLine_of_skipped parse canon allowed n l st hl]
    exact ih (n + 1) st (fun x hx => h x (List.mem_cons_of_mem l hx))

@[simp] theorem progressCheck_valid_count (n : Nat) (st : CleanState) :
    (progressCheck n st).valid_count = st.valid_count := by
  unfold progressCheck; split <;> rfl

@[simp] theorem progressCheck_invalid_count (n : Nat) (st : CleanState) :
    (progressCheck n st).invalid_count = st.invalid_count := by
  unfold progressCheck; split <;> rfl

@[simp] theorem progressCheck_invalid_reasons (n : Nat) (st : CleanState) :
    (progressCheck n st).invalid_reasons = st.invalid_reasons := by
  unfold progressCheck; split <;> rfl

@[simp] theorem progressCheck_output (n : Nat) (st : CleanState) :
    (progressCheck n st).output = st.output := by
  unfold progressCheck; split <;> rfl

theorem progressCheck_progress (n : Nat) (st : CleanState) :
    (progressCheck n st).progress =
      if n % 1000 = 0 then st.progress ++ [n] else st.progress := by
  unfold progressCheck; split <;> rfl

/-- Case analysis on one successful loop iteration: either the line was
skipped and the state is unchanged, or the record was classified and the
state updated through exactly one of the two branches. -/
theorem processLine_cases {μ : Type*} {parse : String → Option μ}
    {canon : μ → String} {allowed : Finset String} {n : Nat} {line : String}
    {st st' : CleanState}
    (h : processLine parse canon allowed n line st = some st') :
    (skippedLine line = true ∧ st' = st) ∨
    (skippedLine line = false ∧
      ((∃ res, st' = progressCheck n
          { st with output := st.output ++ [res],
                    valid_count := st.valid_count + 1 }) ∨
       (∃ r, st' = progressCheck n
          { st with invalid_count := st.invalid_count + 1,
                    invalid_reasons := bumpReason st.invalid_reasons r }))) := by
  unfold processLine at h
  by_cases hs : skippedLine line = true
  · rw [if_pos hs] at h
    exact Or.inl ⟨hs, (Option.some.inj h).symm⟩
  · rw [if_neg hs] at h
    simp only [] at h
    refine Or.inr ⟨Bool.not_eq_true _ ▸ hs, ?_⟩
    rcases hv : is_valid_smiles parse canon
        (pySplitOnce (pyStrip line)).1 allowed with _ | ⟨flag, payload⟩
    · rw [hv] at h; exact absurd h (by simp)
    · rw [hv] at h
      cases flag
      · exact Or.inr ⟨payload, (Option.some.inj h).symm⟩
      · exact Or.inl ⟨_, (Option.some.inj h).symm⟩

theorem sumTally_bumpReason (reasons : List (String × Nat)) (r : String) :
    sumTally (bumpReason reasons r) = sumTally reasons + 1 := by
  induction reasons with
  | nil => rfl
  | cons p rest ih =>
    obtain ⟨k, v⟩ := p
    by_cases hk : k = r
    · simp [bumpReason, hk, sumTally]
      omega
    · simp [bumpReason, hk, sumTally] at ih ⊢
      omega

/-! Section: C1: the tokenizer on an unclosed bracket -/

/-- C1.  The claim — the tokenizer terminates on every input and emits
the bracket-to-end-of-string substring as one token when no `]`
follows a `[` — fails on the code: when `smiles.find(']', i)` fails it
returns `-1`, so `end = 0`, the empty slice `smiles[i:0]` is added, and
`i = end` resets the scan to position 0: the `while` loop never
terminates.  On the one-character input `"["`, no amount of fuel makes
the loop finish: `tokenizeAux` returns `none` for every fuel, whatever
token set has been accumulated. -/
theorem c1_tokenizer_diverges_on_unclosed_bracket :
    tokenize_smiles "[" = none ∧
    ∀ (fuel : Nat) (tokens : Finset String),
      tokenizeAux "[".data fuel 0 tokens = none := by
  have key : ∀ (fuel : Nat) (tokens : Finset String),
      tokenizeAux "[".data fuel 0 tokens = none := by
    intro fuel
    induction fuel with
    | zero => intro tokens; rfl
    | succ n ih =>
      intro tokens
      show tokenizeAux ['['] (n + 1) 0 tokens = none
      show tokenizeAux ['['] n 0 (insert (pySlice ['['] 0 0) tokens) = none
      exact ih _
  exact ⟨key _ _, key⟩

/-! Section: C5: concrete tokenizations -/

/-- C5.  `tokenize_smiles` maps `"c1ccccc1"` to the token set
`{"c", "1"}`, `"[nH]"` to `{"[nH]"}`, and `"%10CC"` to `{"%10", "C"}`:
duplicates collapse in the set, and `%10` is emitted as a single
three-character token. -/
theorem c5_tokenizer_examples :
    tokenize_smiles "c1ccccc1" = some {"c", "1"} ∧
    tokenize_smiles "[nH]" = some {"[nH]"} ∧
    tokenize_smiles "%10CC" = some {"%10", "C"} := by
  refine ⟨?_, by decide, ?_⟩
  · rw [Finset.pair_comm]; rfl
  · rw [Finset.pair_comm]; rfl

/-! Section: C3: the parse-failure reason string -/

/-- C3 counterexample.  On an unparsable string the validator's exact
reason string is `"Invalid RDKit molecule"`, not the claim's
`"Invalid RDKit-equivalent molecule"`. -/
theorem c3_reason_string_counterexample :
    is_valid_smiles (fun _ => (none : Option Unit)) (fun _ => "") "not_a_molecule"
        get_allowed_tokens = some (false, "Invalid RDKit molecule") ∧
    ("Invalid RDKit molecule" == "Invalid RDKit-equivalent molecule") = false := by
  exact ⟨rfl, by decide⟩

/-- C3 amended.  For every input on which the external parse returns
`none`, the validator classifies the record as invalid with the exact
reason string `"Invalid RDKit molecule"`. -/
theorem c3_parse_failure_reason {μ : Type*} (parse : String → Option μ)
    (canon : μ → String) (s : String) (h : parse s = none) :
    is_valid_smiles parse canon s get_allowed_tokens =
      some (false, "Invalid RDKit molecule") := by
  simp [is_valid_smiles, h]

/-- C3 witness: the amended theorem at the spec's own example input. -/
theorem c3_parse_failure_reason_witness :
    is_valid_smiles (fun _ => (none : Option Unit)) (fun _ => "") "not_a_molecule"
      get_allowed_tokens = some (false, "Invalid RDKit molecule") :=
  c3_parse_failure_reason (fun _ => none) (fun _ => "") "not_a_molecule" rfl

/-! Section: C2: validity of parsed molecules -/

/-- Shared helper: when the parse succeeds and the tokens of the
canonical string are all allowed, the validator accepts with the
canonical string. -/
theorem is_valid_smiles_of_canonical_subset {μ : Type*} (parse : String → Option μ)
    (canon : μ → String) (allowed : Finset String) (s : String) (m : μ)
    (T : Finset String) (hm : parse s = some m)
    (hT : tokenize_smiles (canon m) = some T) (hsub : T ⊆ allowed) :
    is_valid_smiles parse canon s allowed = some (true, canon m) := by
  have hempty : T \ allowed = ∅ := Finset.sdiff_eq_empty_iff_subset.mpr hsub
  simp [is_valid_smiles, hm, hT, hempty]

/-- C2 counterexample.  The code checks the tokens of the *canonical*
string, not of the input: with a parse that succeeds on `"C"` (whose
token set `{"C"}` is allowed) but an external canonicalization that
returns `"[Si]"`, the validator reports invalid, refuting the claim that
input-token membership plus parse success imply a valid result. -/
theorem c2_counterexample :
    (tokenize_smiles "C" = some {"C"} ∧
      ({"C"} : Finset String) ⊆ get_allowed_tokens) ∧
    is_valid_smiles (fun _ => (some () : Option Unit)) (fun _ => "[Si]") "C"
        get_allowed_tokens =
      some (false, "Unsupported tokens: \x7b\x27[Si]\x27\x7d") := by
  refine ⟨⟨rfl, by decide⟩, ?_⟩
  have hd : (({"[Si]"} : Finset String) \ get_allowed_tokens) = {"[Si]"} :=
    Finset.Subset.antisymm (by decide) (by decide)
  have hrender : renderTokenSet ({"[Si]"} : Finset String) = "\x7b\x27[Si]\x27\x7d" := by
    unfold renderTokenSet
    rw [Finset.sort_singleton]
    decide
  have ht : tokenize_smiles "[Si]" = some {"[Si]"} := rfl
  have hne : (({"[Si]"} : Finset String) \ get_allowed_tokens).Nonempty := by decide
  simp [is_valid_smiles, ht, hne, hd, hrender]

/-- C2 amended.  For every input whose parse succeeds and whose
*canonical* string tokenizes to a set of allowed tokens, the validator
returns valid together with the canonical string itself (hence the
returned string is non-empty exactly when the external canonical output
is non-empty). -/
theorem c2_valid_when_canonical_tokens_allowed {μ : Type*}
    (parse : String → Option μ) (canon : μ → String) (s : String) (m : μ)
    (T : Finset String) (hm : parse s = some m)
    (hT : tokenize_smiles (canon m) = some T) (hsub : T ⊆ get_allowed_tokens) :
    is_valid_smiles parse canon s get_allowed_tokens = some (true, canon m) :=
  is_valid_smiles_of_canonical_subset parse canon get_allowed_tokens s m T hm hT hsub

/-- C2 witness: the amended theorem at a concrete instance. -/
theorem c2_valid_when_canonical_tokens_allowed_witness :
    is_valid_smiles (fun _ => (some () : Option Unit)) (fun _ => "C") "C"
      get_allowed_tokens = some (true, "C") :=
  c2_valid_when_canonical_tokens_allowed (fun _ => some ()) (fun _ => "C") "C" ()
    {"C"} rfl rfl (by decide)

/-! Section: C6: the reporter on an empty record set -/

/-- C6.  When every input line is skipped (blank or comment — in
particular for an empty input file), both counters stay zero and the
reporter's percentage `valid_count/(valid_count+invalid_count)*100` is a
division by zero: the Python code raises `ZeroDivisionError` (modelled
by `success_rate _ _ = none`) instead of printing the summary. -/
theorem c6_zero_records_breaks_reporter {μ : Type*} (parse : String → Option μ)
    (canon : μ → String) (lines : List String)
    (h : ∀ l ∈ lines, skippedLine l = true) :
    clean_smiles_file parse canon lines = some initState ∧
    initState.valid_count + initState.invalid_count = 0 ∧
    success_rate initState.valid_count initState.invalid_count = none :=
  ⟨processLines_all_skipped parse canon get_allowed_tokens lines 1 initState h,
   rfl, rfl⟩

/-- C6 witness: a file of one blank and one comment line. -/
theorem c6_zero_records_breaks_reporter_witness :
    clean_smiles_file (fun _ => (none : Option Unit)) (fun _ => "")
        ["", "  # comment"] = some initState ∧
    success_rate initState.valid_count initState.invalid_count = none := by
  have h := c6_zero_records_breaks_reporter (fun _ => (none : Option Unit))
    (fun _ => "") ["", "  # comment"] (by decide)
  exact ⟨h.1, h.2.2⟩

/-! Section: C8: skipped lines leave the state untouched -/

/-- C8.  A line that is blank after stripping, or whose first
non-whitespace character is `#`, is skipped: the loop iteration returns
the state unchanged, so the line is never validated, never written, and
increments neither counter. -/
theorem c8_blank_and_comment_lines_skipped {μ : Type*} (parse : String → Option μ)
    (canon : μ → String) (allowed : Finset String) (n : Nat) (line : String)
    (st : CleanState) (h : skippedLine line = true) :
    processLine parse canon allowed n line st = some st :=
  processLine_of_skipped parse canon allowed n line st h

/-- C8 witness: a comment line and a whitespace-only line. -/
theorem c8_blank_and_comment_lines_skipped_witness :
    processLine (fun _ => (none : Option Unit)) (fun _ => "") get_allowed_tokens 1
        " # skip me" initState = some initState ∧
    processLine (fun _ => (none : Option Unit)) (fun _ => "") get_allowed_tokens 2
        "   " initState = some initState :=
  ⟨c8_blank_and_comment_lines_skipped _ _ _ _ _ _ (by decide),
   c8_blank_and_comment_lines_skipped _ _ _ _ _ _ (by decide)⟩

/-! Section: C10: counter and tally invariants -/

/-- C10.  Each processed (non-skipped) record increments exactly one of
the two counters; and in any completed run — hence, because a run on a
prefix is itself a run, at every intermediate state of any run — the
number of written output lines equals `valid_count` and the per-reason
tally counts sum to `invalid_count`. -/
theorem c10_record_accounting {μ : Type*} (parse : String → Option μ)
    (canon : μ → String) :
    (∀ (n : Nat) (line : String) (st st' : CleanState),
        skippedLine line = false →
        processLine parse canon get_allowed_tokens n line st = some st' →
        (st'.valid_count = st.valid_count + 1 ∧
          st'.invalid_count = st.invalid_count) ∨
        (st'.valid_count = st.valid_count ∧
          st'.invalid_count = st.invalid_count + 1)) ∧
    (∀ (lines : List String) (st : CleanState),
        clean_smiles_file parse canon lines = some st →
        st.output.length = st.valid_count ∧
        sumTally st.invalid_reasons = st.invalid_count) := by
  constructor
  · intro n line st st' hskip h
    rcases processLine_cases h with ⟨hs, _⟩ | ⟨_, hcase⟩
    · rw [hskip] at hs; exact absurd hs (by simp)
    · rcases hcase with ⟨res, rfl⟩ | ⟨r, rfl⟩
      · exact Or.inl ⟨by simp, by simp⟩
      · exact Or.inr ⟨by simp, by simp⟩
  · have key : ∀ (lines : List String) (n : Nat) (st : CleanState),
        st.output.length = st.valid_count →
        sumTally st.invalid_reasons = st.invalid_count →
        ∀ st', processLines parse canon get_allowed_tokens lines n st = some st' →
          st'.output.length = st'.valid_count ∧
          sumTally st'.invalid_reasons = st'.invalid_count := by
      intro lines
      induction lines with
      | nil =>
        intro n st h1 h2 st' h
        obtain rfl := Option.some.inj h
        exact ⟨h1, h2⟩
      | cons l ls ih =>
        intro n st h1 h2 st' h
        simp only [processLines] at h
        rcases hp : processLine parse canon get_allowed_tokens n l st with _ | st₁
        · rw [hp] at h; exact absurd h (by simp)
        · rw [hp] at h
          have step : st₁.output.length = st₁.valid_count ∧
              sumTally st₁.invalid_reasons = st₁.invalid_count := by
            rcases processLine_cases hp with ⟨_, rfl⟩ | ⟨_, hcase⟩
            · exact ⟨h1, h2⟩
            · rcases hcase with ⟨res, rfl⟩ | ⟨r, rfl⟩
              · exact ⟨by simp [h1], by simpa using h2⟩
              · exact ⟨by simpa using h1, by simp [sumTally_bumpReason, h2]⟩
          exact ih (n + 1) st₁ step.1 step.2 st' h
    intro lines st h
    exact key lines 1 initState rfl rfl st h

/-- C10 witness: both conjuncts at a one-line run. -/
theorem c10_record_accounting_witness :
    (∃ st', processLine (fun _ => (some () : Option Unit)) (fun _ => "C")
        get_allowed_tokens 1 "C" initState = some st' ∧
        ((st'.valid_count = initState.valid_count + 1 ∧
            st'.invalid_count = initState.invalid_count) ∨
         (st'.valid_count = initState.valid_count ∧
            st'.invalid_count = initState.invalid_count + 1))) ∧
    (∃ st, clean_smiles_file (fun _ => (some () : Option Unit)) (fun _ => "C")
        ["C"] = some st ∧
        st.output.length = st.valid_count ∧
        sumTally st.invalid_reasons = st.invalid_count) := by
  constructor
  · refine ⟨{ valid_count := 1, invalid_count := 0, invalid_reasons := [],
              output := ["C\tmol_1"], progress := [] }, by decide, ?_⟩
    exact (c10_record_accounting (fun _ => (some () : Option Unit))
      (fun _ => "C")).1 1 "C" initState _ (by decide) (by decide)
  · refine ⟨{ valid_count := 1, invalid_count := 0, invalid_reasons := [],
              output := ["C\tmol_1"], progress := [] }, by decide, ?_⟩
    exact (c10_record_accounting (fun _ => (some () : Option Unit))
      (fun _ => "C")).2 ["C"] _ (by decide)

/-! Section: C4: the unsupported-token branch and its reason message -/

theorem infix_joinCommaSpace {x : String} :
    ∀ {L : List String}, x ∈ L → x.data <:+: (joinCommaSpace L).data := by
  intro L
  induction L with
  | nil => intro h; exact absurd h (List.not_mem_nil x)
  | cons y ys ih =>
    intro h
    rcases ys with _ | ⟨z, zs⟩
    · rcases List.mem_singleton.mp h with rfl
      exact List.infix_rfl
    · rcases List.mem_cons.mp h with rfl | h
      · show x.data <:+: (x ++ ", " ++ joinCommaSpace (z :: zs)).data
        exact ⟨[], ", ".data ++ (joinCommaSpace (z :: zs)).data,
          by simp [String.data_append]⟩
      · show x.data <:+: (y ++ ", " ++ joinCommaSpace (z :: zs)).data
        rw [String.data_append]
        exact (ih h).trans (List.suffix_append _ _).isInfix

/-- Every member of a token set occurs (as a character substring) in the
rendering of that set, and hence in any reason message that appends the
rendering to a fixed prefix. -/
theorem token_infix_reason {t : String} {s : Finset String} (ht : t ∈ s)
    (pre : String) : t.data <:+: (pre ++ renderTokenSet s).data := by
  have h1 : quoteStr t ∈ (s.sort (· ≤ ·)).map quoteStr :=
    List.mem_map_of_mem _ ((Finset.mem_sort _).mpr ht)
  have h2 : t.data <:+: (quoteStr t).data :=
    ⟨"\x27".data, "\x27".data, by simp [quoteStr, String.data_append]⟩
  have h3 : (joinCommaSpace ((s.sort (· ≤ ·)).map quoteStr)).data <:+:
      (renderTokenSet s).data :=
    ⟨"\x7b".data, "\x7d".data, by simp [renderTokenSet, String.data_append]⟩
  have h4 : (renderTokenSet s).data <:+: (pre ++ renderTokenSet s).data :=
    ⟨pre.data, [], by simp [String.data_append]⟩
  exact ((h2.trans (infix_joinCommaSpace h1)).trans h3).trans h4

/-- C4.  For every successfully parsed input (whose canonical string the
tokenizer terminates on, yielding token set `T`): the validator returns
invalid iff `T` minus the allow-set is non-empty; in that case the
result is exactly the reason `"Unsupported tokens: "` followed by the
rendering of the difference, and that reason string contains every
unsupported token as a substring. -/
theorem c4_unsupported_token_reporting {μ : Type*} (parse : String → Option μ)
    (canon : μ → String) (s : String) (m : μ) (T : Finset String)
    (hm : parse s = some m) (hT : tokenize_smiles (canon m) = some T) :
    ((is_valid_smiles parse canon s get_allowed_tokens).map Prod.fst =
        some false ↔ (T \ get_allowed_tokens).Nonempty) ∧
    ((T \ get_allowed_tokens).Nonempty →
      is_valid_smiles parse canon s get_allowed_tokens =
        some (false,
          "Unsupported tokens: " ++ renderTokenSet (T \ get_allowed_tokens))) ∧
    (∀ t ∈ T \ get_allowed_tokens,
      t.data <:+:
        ("Unsupported tokens: " ++
          renderTokenSet (T \ get_allowed_tokens)).data) := by
  have hval : is_valid_smiles parse canon s get_allowed_tokens =
      if (T \ get_allowed_tokens).Nonempty then
        some (false,
          "Unsupported tokens: " ++ renderTokenSet (T \ get_allowed_tokens))
      else some (true, canon m) := by
    simp [is_valid_smiles, hm, hT]
  refine ⟨?_, ?_, ?_⟩
  · by_cases hne : (T \ get_allowed_tokens).Nonempty
    · simp [hval, hne]
    · simp [hval, hne]
  · intro hne; simp [hval, hne]
  · intro t ht
    exact token_infix_reason ht _

/-- C4 witness: the spec's own example — an input canonicalizing to
`"[Si]"` is classified invalid and the reason contains `"[Si]"`. -/
theorem c4_unsupported_token_reporting_witness :
    (is_valid_smiles (fun _ => (some () : Option Unit)) (fun _ => "[Si]") "C"
        get_allowed_tokens).map Prod.fst = some false ∧
    "[Si]".data <:+:
      ("Unsupported tokens: " ++
        renderTokenSet (({"[Si]"} : Finset String) \ get_allowed_tokens)).data := by
  have h := c4_unsupported_token_reporting (fun _ => (some () : Option Unit))
    (fun _ => "[Si]") "C" () {"[Si]"} rfl rfl
  exact ⟨h.1.mpr (by decide), h.2.2 "[Si]" (by decide)⟩

/-! Section: C9: progress notices -/

theorem processLine_progress_hit {μ : Type*} {parse : String → Option μ}
    {canon : μ → String} {allowed : Finset String} {n : Nat} {line : String}
    {st st' : CleanState} (hskip : skippedLine line = false)
    (hmod : n % 1000 = 0)
    (h : processLine parse canon allowed n line st = some st') :
    st'.progress = st.progress ++ [n] := by
  rcases processLine_cases h with ⟨hs, _⟩ | ⟨_, hc⟩
  · rw [hskip] at hs; exact absurd hs (by simp)
  · rcases hc with ⟨res, rfl⟩ | ⟨r, rfl⟩ <;>
      simp [progressCheck_progress, hmod]

theorem processLine_progress_mono {μ : Type*} {parse : String → Option μ}
    {canon : μ → String} {allowed : Finset String} {n : Nat} {line : String}
    {st st' : CleanState}
    (h : processLine parse canon allowed n line st = some st') :
    st.progress ⊆ st'.progress := by
  rcases processLine_cases h with ⟨_, rfl⟩ | ⟨_, hc⟩
  · exact List.Subset.refl _
  · rcases hc with ⟨res, rfl⟩ | ⟨r, rfl⟩ <;>
    · rw [progressCheck_progress]
      split
      · exact List.subset_append_left _ _
      · exact List.Subset.refl _

theorem processLines_progress_mono {μ : Type*} (parse : String → Option μ)
    (canon : μ → String) (allowed : Finset String) :
    ∀ (lines : List String) (n : Nat) (st st' : CleanState),
      processLines parse canon allowed lines n st = some st' →
      st.progress ⊆ st'.progress := by
  intro lines
  induction lines with
  | nil =>
    intro n st st' h
    obtain rfl := Option.some.inj h
    exact List.Subset.refl _
  | cons l ls ih =>
    intro n st st' h
    simp only [processLines] at h
    rcases hp : processLine parse canon allowed n l st with _ | st₁
    · rw [hp] at h; exact absurd h (by simp)
    · rw [hp] at h
      exact (processLine_progress_mono hp).trans (ih (n + 1) st₁ st' h)

theorem processLines_progress_multiple {μ : Type*} (parse : String → Option μ)
    (canon : μ → String) (allowed : Finset String) :
    ∀ (lines : List String) (n : Nat) (st st' : CleanState),
      processLines parse canon allowed lines n st = some st' →
      ∀ (j : Nat) (line : String), lines[j]? = some line →
        skippedLine line = false → (n + j) % 1000 = 0 →
        (n + j) ∈ st'.progress := by
  intro lines
  induction lines with
  | nil => intro n st st' _ j line hj; simp at hj
  | cons l ls ih =>
    intro n st st' h j line hj hskip hmod
    simp only [processLines] at h
    rcases hp : processLine parse canon allowed n l st with _ | st₁
    · rw [hp] at h; exact absurd h (by simp)
    · rw [hp] at h
      rcases j with _ | j
      · rw [Nat.add_zero] at hmod ⊢
        have hl : l = line := by simpa using hj
        subst hl
        have hmem : n ∈ st₁.progress := by
          rw [processLine_progress_hit hskip hmod hp]; simp
        exact processLines_progress_mono parse canon allowed ls (n + 1) st₁ st' h
          hmem
      · have hj' : ls[j]? = some line := by simpa using hj
        have harith : n + (j + 1) = n + 1 + j := by omega
        rw [harith] at hmod ⊢
        exact ih (n + 1) st₁ st' h j line hj' hskip hmod

theorem processLines_append {μ : Type*} (parse : String → Option μ)
    (canon : μ → String) (allowed : Finset String) :
    ∀ (xs ys : List String) (n : Nat) (st : CleanState),
      processLines parse canon allowed (xs ++ ys) n st =
        match processLines parse canon allowed xs n st with
        | none => none
        | some st' => processLines parse canon allowed ys (n + xs.length) st' := by
  intro xs
  induction xs with
  | nil => intro ys n st; simp [processLines]
  | cons x xs ih =>
    intro ys n st
    simp only [List.cons_append, processLines]
    rcases hp : processLine parse canon allowed n x st with _ | st₁
    · rfl
    · show processLines parse canon allowed (xs ++ ys) (n + 1) st₁ =
        match processLines parse canon allowed xs (n + 1) st₁ with
        | none => none
        | some st' => processLines parse canon allowed ys (n + (x :: xs).length) st'
      rw [ih ys (n + 1) st₁]
      have harith : n + 1 + xs.length = n + (x :: xs).length := by
        rw [List.length_cons]; omega
      rw [harith]

/-- C9 counterexample.  A file of exactly 1000 lines, all blank: line
1000 is a multiple of 1000, yet the run records no progress notice at
all, because the blank/comment `continue` jumps past the
`line_num % 1000` check. -/
theorem c9_counterexample :
    clean_smiles_file (fun _ => (none : Option Unit)) (fun _ => "")
        (List.replicate 1000 "") = some initState ∧
    (List.replicate 1000 ("" : String)).length = 1000 ∧
    initState.progress = ([] : List Nat) := by
  refine ⟨?_, by rw [List.length_replicate], rfl⟩
  exact processLines_all_skipped _ _ _ _ 1 initState (fun l hl => by
    rw [List.eq_of_mem_replicate hl]; rfl)

/-- C9 amended.  In every completed run, a progress notice is emitted
after each *processed* (non-skipped) line whose 1-indexed line number is
a multiple of 1000; skipped lines reach the `continue` first and emit no
notice even on a multiple of 1000. -/
theorem c9_progress_notice_for_processed_lines {μ : Type*}
    (parse : String → Option μ) (canon : μ → String) (lines : List String)
    (st : CleanState) (k : Nat) (line : String)
    (hrun : clean_smiles_file parse canon lines = some st)
    (hline : lines[k - 1]? = some line) (hk : 1 ≤ k)
    (hskip : skippedLine line = false) (hmod : k % 1000 = 0) :
    k ∈ st.progress := by
  have h := processLines_progress_multiple parse canon get_allowed_tokens lines 1
    initState st hrun (k - 1) line hline hskip (by omega)
  have harith : 1 + (k - 1) = k := by omega
  rwa [harith] at h

/-- C9 witness: 999 blank lines followed by a processed line numbered
1000; the notice for line 1000 is present. -/
theorem c9_progress_notice_for_processed_lines_witness :
    ∃ st, clean_smiles_file (fun _ => (some () : Option Unit)) (fun _ => "C")
        (List.replicate 999 "" ++ ["C"]) = some st ∧ 1000 ∈ st.progress := by
  have hskipped : processLines (fun _ => (some () : Option Unit)) (fun _ => "C")
      get_allowed_tokens (List.replicate 999 "") 1 initState = some initState :=
    processLines_all_skipped _ _ _ _ 1 initState (fun l hl => by
      rw [List.eq_of_mem_replicate hl]; rfl)
  have hrun : clean_smiles_file (fun _ => (some () : Option Unit)) (fun _ => "C")
      (List.replicate 999 "" ++ ["C"]) =
      some { valid_count := 1, invalid_count := 0, invalid_reasons := [],
             output := ["C\tmol_1000"], progress := [1000] } := by
    rw [clean_smiles_file, processLines_append, hskipped]
    show processLines _ _ _ ["C"] (1 + (List.replicate 999 ("" : String)).length)
      initState = _
    rw [List.length_replicate]
    decide
  refine ⟨_, hrun, ?_⟩
  refine c9_progress_notice_for_processed_lines _ _ _ _ 1000 "C" hrun ?_
    (by norm_num) (by decide) (by decide)
  rw [List.getElem?_append_right (List.length_replicate 999 ("" : String)).le,
    List.length_replicate]
  rfl

/-! Section: C7: re-running the tool on its own output -/

theorem stringMk_data (s : String) : String.mk s.data = s := by
  obtain ⟨d⟩ := s; rfl

theorem string_eq_empty_of_data_eq_nil {s : String} (h : s.data = []) : s = "" := by
  obtain ⟨d⟩ := s
  simp only at h
  rw [h]

theorem takeWhile_append_of_all {α : Type*} (p : α → Bool) :
    ∀ (l₁ l₂ : List α), l₁.all p = true →
      (l₁ ++ l₂).takeWhile p = l₁ ++ l₂.takeWhile p := by
  intro l₁
  induction l₁ with
  | nil => intro l₂ _; simp
  | cons a l ih =>
    intro l₂ h
    simp only [List.all_cons, Bool.and_eq_true] at h
    simp [List.takeWhile_cons, h.1, ih l₂ h.2]

theorem dropWhile_append_of_all {α : Type*} (p : α → Bool) :
    ∀ (l₁ l₂ : List α), l₁.all p = true →
      (l₁ ++ l₂).dropWhile p = l₂.dropWhile p := by
  intro l₁
  induction l₁ with
  | nil => intro l₂ _; simp
  | cons a l ih =>
    intro l₂ h
    simp only [List.all_cons, Bool.and_eq_true] at h
    simp [List.dropWhile_cons, h.1, ih l₂ h.2]

/-- A line of the tool's own output: canonical SMILES, tab, name, where
the SMILES part parses, canonicalizes back to itself (the idempotence
hypothesis of the claim), passes the token filter, is non-empty,
whitespace-free and does not begin with `#`, and the name part is
non-empty without leading whitespace — all of which hold of every line
the tool writes. -/
def CanonicalRecordLine {μ : Type*} (parse : String → Option μ)
    (canon : μ → String) (line : String) : Prop :=
  ∃ c name m T,
    line = c ++ "\t" ++ name ∧
    pyStrip line = line ∧
    parse c = some m ∧
    canon m = c ∧
    tokenize_smiles c = some T ∧
    T ⊆ get_allowed_tokens ∧
    c ≠ "" ∧
    c.data.all (fun ch => !ch.isWhitespace) = true ∧
    startsWithHash c = false ∧
    name ≠ "" ∧
    name.data.dropWhile Char.isWhitespace = name.data

theorem processLine_canonical {μ : Type*} {parse : String → Option μ}
    {canon : μ → String} {line : String}
    (hcl : CanonicalRecordLine parse canon line) (n : Nat) (st : CleanState) :
    processLine parse canon get_allowed_tokens n line st =
      some (progressCheck n
        { st with output := st.output ++ [line],
                  valid_count := st.valid_count + 1 }) := by
  obtain ⟨c, name, m, T, hline, hstrip, hm, hcanon, hT, hsub, hcne, hcws, hchash,
    hnne, hnhead⟩ := hcl
  subst hline
  obtain ⟨ch, cs, hcdata⟩ : ∃ ch cs, c.data = ch :: cs := by
    rcases hcd : c.data with _ | ⟨ch, cs⟩
    · exact absurd (string_eq_empty_of_data_eq_nil hcd) hcne
    · exact ⟨ch, cs, rfl⟩
  have hdata : (c ++ "\t" ++ name).data = c.data ++ ('\t' :: name.data) := by
    rw [String.data_append, String.data_append]
    simp
  have hne_line : decide ((c ++ "\t" ++ name) = "") = false := by
    rw [decide_eq_false_iff_not]
    intro heq
    have hd := congrArg String.data heq
    rw [hdata] at hd
    simp at hd
  have hhash_line : startsWithHash (c ++ "\t" ++ name) = false := by
    unfold startsWithHash at hchash ⊢
    rw [hdata, hcdata]
    rw [hcdata] at hchash
    simp only [List.cons_append]
    exact hchash
  have hskip : skippedLine (c ++ "\t" ++ name) = false := by
    unfold skippedLine
    rw [hstrip, hne_line, hhash_line]
    rfl
  have hw : (c.data ++ ('\t' :: name.data)).takeWhile
      (fun ch => !ch.isWhitespace) = c.data := by
    rw [takeWhile_append_of_all _ _ _ hcws]
    simp [List.takeWhile_cons]
  have hr : ((c.data ++ ('\t' :: name.data)).dropWhile
      (fun ch => !ch.isWhitespace)).dropWhile Char.isWhitespace = name.data := by
    rw [dropWhile_append_of_all _ _ _ hcws]
    simp [List.dropWhile_cons, hnhead]
  have hnd_ne : name.data.isEmpty = false := by
    rcases hnd : name.data with _ | _
    · exact absurd (string_eq_empty_of_data_eq_nil hnd) hnne
    · rfl
  have hsplit : pySplitOnce (c ++ "\t" ++ name) = (c, some name) := by
    unfold pySplitOnce
    rw [hdata, hw, hr]
    simp only [hnd_ne, Bool.false_eq_true, if_false, stringMk_data]
  have hvalid : is_valid_smiles parse canon c get_allowed_tokens =
      some (true, c) := by
    have h := is_valid_smiles_of_canonical_subset parse canon get_allowed_tokens
      c m T hm (by rw [hcanon]; exact hT) hsub
    rw [hcanon] at h
    exact h
  simp only [processLine, hskip, Bool.false_eq_true, if_false, hstrip, hsplit,
    hvalid]

theorem processLines_canonical {μ : Type*} (parse : String → Option μ)
    (canon : μ → String) :
    ∀ (lines : List String) (n : Nat) (st : CleanState),
      (∀ line ∈ lines, CanonicalRecordLine parse canon line) →
      ∃ st', processLines parse canon get_allowed_tokens lines n st = some st' ∧
        st'.output = st.output ++ lines ∧
        st'.valid_count = st.valid_count + lines.length ∧
        st'.invalid_count = st.invalid_count ∧
        st'.invalid_reasons = st.invalid_reasons := by
  intro lines
  induction lines with
  | nil => intro n st _; exact ⟨st, rfl, by simp, by simp, rfl, rfl⟩
  | cons l ls ih =>
    intro n st h
    have hstep := processLine_canonical (h l (List.mem_cons_self l ls)) n st
    obtain ⟨st', hrun, hout, hval, hinv, hreas⟩ :=
      ih (n + 1) (progressCheck n
        { st with output := st.output ++ [l],
                  valid_count := st.valid_count + 1 })
        (fun x hx => h x (List.mem_cons_of_mem l hx))
    refine ⟨st', ?_, ?_, ?_, ?_, ?_⟩
    · simp only [processLines, hstep]
      exact hrun
    · rw [hout]; simp
    · rw [hval]; simp; omega
    · rw [hinv]; simp
    · rw [hreas]; simp

/-- C7 counterexample.  Re-running the tool on its own *empty* output
file (e.g. the output of a run whose every input line was a comment):
the second run's output is again empty and identical to its input, but
the success rate is a division by zero — the reporter crashes — not the
claimed 100%. -/
theorem c7_counterexample :
    clean_smiles_file (fun _ => (none : Option Unit)) (fun _ => "")
        ([] : List String) = some initState ∧
    initState.output = ([] : List String) ∧
    success_rate initState.valid_count initState.invalid_count = none :=
  ⟨rfl, rfl, rfl⟩

/-- C7 amended.  Re-running the tool on its own *non-empty* output —
every line of the form canonical-SMILES, tab, name, already filtered,
with the canonicalization idempotent on it, canonical strings non-empty,
whitespace-free and not beginning with `#`, and names non-empty without
leading whitespace (all true of lines the tool writes) — reproduces the
input file exactly as output, with every record valid and a success rate
of exactly 100%.  (For an empty output file the re-run also reproduces
it, but the reporter then divides by zero instead of reporting 100%.) -/
theorem c7_rerun_on_own_output {μ : Type*} (parse : String → Option μ)
    (canon : μ → String) (lines : List String) (hne : lines ≠ [])
    (h : ∀ line ∈ lines, CanonicalRecordLine parse canon line) :
    ∃ st, clean_smiles_file parse canon lines = some st ∧
      st.output = lines ∧
      st.valid_count = lines.length ∧
      st.invalid_count = 0 ∧
      success_rate st.valid_count st.invalid_count = some 100 := by
  obtain ⟨st, hrun, hout, hval, hinv, _⟩ :=
    processLines_canonical parse canon lines 1 initState h
  have hval' : st.valid_count = lines.length := by
    rw [hval]
    show 0 + lines.length = lines.length
    omega
  have hinv' : st.invalid_count = 0 := hinv
  refine ⟨st, hrun, by simpa using hout, hval', hinv', ?_⟩
  rw [hval', hinv']
  have hlen : lines.length ≠ 0 := fun h0 => hne (List.length_eq_zero.mp h0)
  unfold success_rate
  rw [if_neg (by omega)]
  congr 1
  rw [Nat.cast_zero, add_zero, div_self (Nat.cast_ne_zero.mpr hlen), one_mul]

/-- C7 witness: a one-line output file `"C<TAB>m"` with an idempotent
canonicalization; the re-run reproduces it with a 100% success rate. -/
theorem c7_rerun_on_own_output_witness :
    ∃ st, clean_smiles_file
        (fun s => if s = "C" then (some () : Option Unit) else none)
        (fun _ => "C") ["C\tm"] = some st ∧
      st.output = ["C\tm"] ∧
      success_rate st.valid_count st.invalid_count = some 100 := by
  have hcl : ∀ line ∈ ["C\tm"], CanonicalRecordLine
      (fun s => if s = "C" then (some () : Option Unit) else none)
      (fun _ => "C") line := by
    intro line hl
    have : line = "C\tm" := by simpa using hl
    subst this
    exact ⟨"C", "m", (), {"C"}, by decide, by decide, rfl, rfl, rfl, by decide,
      by decide, by decide, by decide, by decide, by decide⟩
  obtain ⟨st, h1, h2, _, _, h5⟩ := c7_rerun_on_own_output
    (fun s => if s = "C" then (some () : Option Unit) else none)
    (fun _ => "C") ["C\tm"] (by decide) hcl
  exact ⟨st, h1, h2, h5⟩

end FilterSmiles
